import Mathlib

/-!
Verification of the access-control permission store (`pkg/services/accesscontrol/database`):
`GetUserPermissions`, `GetUsersPermissions` and `DeleteUserPermissions` are shallowly
embedded over an explicit relational state (the tables `user`, `org_user`, `user_role`,
`team_role`, `team_member`, `builtin_role`, `role`, `permission`), and the claimed
properties are proved or refuted against that embedding.
-/

namespace ACStore

/-- A database-layer error, propagated unchanged. -/
abbrev DBErr := String

/-- Modelled from the spec: the reserved organization-independent scope id (`OrgID = 0`). -/
def GlobalOrgID : Int := 0

/-- Modelled from the spec: the name of the most senior builtin role. -/
def RoleGrafanaAdmin : String := "Grafana Admin"

/-- Modelled from the spec: managed per-user role names are deterministically derived
from the user id (the constant `accesscontrol.ManagedUserRoleName`). -/
def ManagedUserRoleName (uid : Int) : String :=
  "managed:users:" ++ toString uid ++ ":permissions"

/-- Modelled from the spec: `accesscontrol.Scope("users", "id", v)`, the instance scope
over the user resource, `"<resource>:<attribute>:<value>"`. -/
def userScope (uid : Int) : String :=
  "users:id:" ++ toString uid

/-- A row of the `permission` table: owned by a role, carries an action and a scope. -/
structure PermissionRow where
  roleId : Int
  action : String
  scope : String
deriving DecidableEq, Repr

/-- A row of the `role` table. -/
structure RoleRec where
  id : Int
  orgId : Int
  name : String
deriving DecidableEq, Repr

/-- A row of the `user_role` table: direct user-role assignment. -/
structure UserRoleRow where
  orgId : Int
  userId : Int
  roleId : Int
deriving DecidableEq, Repr

/-- A row of the `team_role` table. -/
structure TeamRoleRow where
  orgId : Int
  teamId : Int
  roleId : Int
deriving DecidableEq, Repr

/-- A row of the `team_member` table (only the columns the queries join on). -/
structure TeamMemberRow where
  teamId : Int
  userId : Int
deriving DecidableEq, Repr

/-- A row of the `builtin_role` table: attaches a role to a builtin role name per org. -/
structure BuiltinRoleRow where
  orgId : Int
  role : String
  roleId : Int
deriving DecidableEq, Repr

/-- A row of the `org_user` table: a user's membership and basic role in one org. -/
structure OrgUserRow where
  orgId : Int
  userId : Int
  role : String
deriving DecidableEq, Repr

/-- A row of the `user` table (only the columns the queries use). -/
structure UserRec where
  id : Int
  isAdmin : Bool
deriving DecidableEq, Repr

/-- The persisted state: the tables the three store operations read and write. -/
structure State where
  users : List UserRec
  orgUsers : List OrgUserRow
  userRoles : List UserRoleRow
  teamRoles : List TeamRoleRow
  teamMembers : List TeamMemberRow
  builtinRoles : List BuiltinRoleRow
  roles : List RoleRec
  permissions : List PermissionRow
deriving DecidableEq, Repr

/-- The permission pair returned to callers (`accesscontrol.Permission`). -/
structure Permission where
  action : String
  scope : String
deriving DecidableEq, Repr

/-- SQL `LIKE` pattern matching over character lists: in the pattern, a percent sign
matches any sequence of characters and an underscore matches exactly one character;
every other character matches itself. -/
def likeMatch : List Char → List Char → Bool
  | [], t => t.isEmpty
  | c :: ps, t =>
    if c = '%' then t.tails.any (fun s => likeMatch ps s)
    else
      match t with
      | [] => false
      | d :: ts => (c = '_' || c = d) && likeMatch ps ts

/-- SQL `LIKE` on strings: `sqlLike pat s` is true when `s` matches pattern `pat`. -/
def sqlLike (pat s : String) : Bool :=
  likeMatch pat.data s.data

/-- Byte-for-byte (character-for-character) string prefix, the spec's words for the
action filter of the batched query. -/
def strHasPfx (p s : String) : Bool :=
  p.data.isPrefixOf s.data

/-- Association list with Go-map update semantics: an existing key's value is replaced
in place, a new key is appended. -/
def alSet {α : Type} (m : List (Int × α)) (k : Int) (v : α) : List (Int × α) :=
  match m with
  | [] => [(k, v)]
  | p :: ps => if p.1 = k then (k, v) :: ps else p :: alSet ps k v

/-- Lookup in the association map; `none` when the key is absent. -/
def alFind {α : Type} (m : List (Int × α)) (k : Int) : Option α :=
  match m with
  | [] => none
  | p :: ps => if p.1 = k then some p.2 else alFind ps k

/-- Go read of a possibly-absent map key: the zero value (`d`) when absent. -/
def alGet {α : Type} (m : List (Int × α)) (k : Int) (d : α) : α :=
  (alFind m k).getD d

/-- The query argument of `GetUserPermissions` (`accesscontrol.GetUserPermissionsQuery`). -/
structure GetUserPermissionsQuery where
  orgID : Int
  userID : Int
  teamIDs : List Int
  roles : List String
  actions : List String

/-- Modelled from the spec: `accesscontrol.UserRolesFilter` (not under `src/`) restricts
the permission join to roles reachable for the identity via the grant paths of §4.2 —
roles directly assigned to the user, roles of the supplied teams, and builtin-role
attachments for the supplied basic-role names — each within the requested organization
or the global scope. -/
def grantedRoleIDs (σ : State) (orgID userID : Int) (teamIDs : List Int)
    (roleNames : List String) : List Int :=
  (σ.userRoles.filter
      (fun ur => ur.userId == userID && (ur.orgId == orgID || ur.orgId == GlobalOrgID))).map
      (fun ur => ur.roleId)
  ++ (σ.teamRoles.filter
      (fun tr => teamIDs.contains tr.teamId && (tr.orgId == orgID || tr.orgId == GlobalOrgID))).map
      (fun tr => tr.roleId)
  ++ (σ.builtinRoles.filter
      (fun br => roleNames.contains br.role && (br.orgId == orgID || br.orgId == GlobalOrgID))).map
      (fun br => br.roleId)

/-- The unfiltered aggregation of `GetUserPermissions`: the permissions of every granted
role, one occurrence per grant path (flat list, duplicates possible). -/
def basePerms (σ : State) (q : GetUserPermissionsQuery) : List Permission :=
  (grantedRoleIDs σ q.orgID q.userID q.teamIDs q.roles).flatMap
    (fun rid => (σ.permissions.filter (fun p => p.roleId == rid)).map
      (fun p => ⟨p.action, p.scope⟩))

/-- `GetUserPermissions`: short-circuits to an empty result when no identity is supplied;
otherwise runs the aggregation query (whose failure `fl` injects) and, when `actions` is
non-empty, restricts to the exact allow-list via `permission.action IN(...)`. The session
callback's error is propagated unchanged (spec §6). -/
def GetUserPermissions (fl : Option DBErr) (σ : State)
    (q : GetUserPermissionsQuery) : List Permission × Option DBErr :=
  if q.userID == 0 && q.teamIDs.isEmpty && q.roles.isEmpty then
    ([], none)
  else
    match fl with
    | some e => ([], some e)
    | none =>
      let base := basePerms σ q
      (if q.actions.isEmpty then base else base.filter (fun p => q.actions.contains p.action),
       none)

/-- A row of the inner `UNION` subquery of the batched permissions query:
`(user_id, org_id, action, scope)`. -/
structure UPermRow where
  userId : Int
  orgId : Int
  action : String
  scope : String
deriving DecidableEq, Repr

/-- First `UNION` branch: `permission INNER JOIN user_role ON ur.role_id = p.role_id`. -/
def branchUser (σ : State) : List UPermRow :=
  σ.permissions.flatMap (fun p =>
    (σ.userRoles.filter (fun ur => ur.roleId == p.roleId)).map
      (fun ur => ⟨ur.userId, ur.orgId, p.action, p.scope⟩))

/-- Second `UNION` branch: `permission JOIN team_role ON tr.role_id = p.role_id
JOIN team_member ON tm.team_id = tr.team_id`. -/
def branchTeam (σ : State) : List UPermRow :=
  σ.permissions.flatMap (fun p =>
    (σ.teamRoles.filter (fun tr => tr.roleId == p.roleId)).flatMap (fun tr =>
      (σ.teamMembers.filter (fun tm => tm.teamId == tr.teamId)).map
        (fun tm => ⟨tm.userId, tr.orgId, p.action, p.scope⟩)))

/-- Third `UNION` branch: `permission JOIN builtin_role ON br.role_id = p.role_id
JOIN org_user ON ou.role = br.role`. -/
def branchBuiltin (σ : State) : List UPermRow :=
  σ.permissions.flatMap (fun p =>
    (σ.builtinRoles.filter (fun br => br.roleId == p.roleId)).flatMap (fun br =>
      (σ.orgUsers.filter (fun ou => ou.role == br.role)).map
        (fun ou => ⟨ou.userId, br.orgId, p.action, p.scope⟩)))

/-- Fourth `UNION` branch: `permission JOIN builtin_role ON br.role_id = p.role_id`,
cross-joined with the admin users (`ON 1 = 1`), restricted to
`br.role = 'Grafana Admin'`. -/
def branchAdmin (σ : State) : List UPermRow :=
  σ.permissions.flatMap (fun p =>
    (σ.builtinRoles.filter
        (fun br => br.roleId == p.roleId && br.role == RoleGrafanaAdmin)).flatMap (fun br =>
      (σ.users.filter (fun us => us.isAdmin)).map
        (fun us => ⟨us.id, br.orgId, p.action, p.scope⟩)))

/-- The four branches combined by SQL `UNION`, which removes duplicate rows. -/
def unionRows (σ : State) : List UPermRow :=
  (branchUser σ ++ branchTeam σ ++ branchBuiltin σ ++ branchAdmin σ).dedup

/-- The outer filter of the batched permissions query:
`WHERE (org_id = 0 OR org_id = ?) AND action LIKE ?` with pattern `pfx + "%"`. -/
def permRows (σ : State) (orgID : Int) (pfx : String) : List UPermRow :=
  (unionRows σ).filter
    (fun r => (r.orgId == GlobalOrgID || r.orgId == orgID) && sqlLike (pfx ++ "%") r.action)

/-- The projected rows scanned into `[]UserRBACPermission`: `(user_id, action, scope)`. -/
structure UserRBACPermission where
  userId : Int
  action : String
  scope : String
deriving DecidableEq, Repr

/-- The result rows of the batched permissions query, projected. -/
def dbPerms (σ : State) (orgID : Int) (pfx : String) : List UserRBACPermission :=
  (permRows σ orgID pfx).map (fun r => ⟨r.userId, r.action, r.scope⟩)

/-- One step of the Go loop `mapped[uid] = append(mapped[uid], Permission{...})`. -/
def addPermRow (m : List (Int × List Permission)) (r : UserRBACPermission) :
    List (Int × List Permission) :=
  alSet m r.userId (alGet m r.userId [] ++ [⟨r.action, r.scope⟩])

/-- The `mapped` result of `GetUsersPermissions`: permissions indexed by user id. -/
def mappedPerms (σ : State) (orgID : Int) (pfx : String) : List (Int × List Permission) :=
  (dbPerms σ orgID pfx).foldl addPermRow []

/-- A result row of the roles query, scanned into `UserOrgRole`. -/
structure UserOrgRole where
  userId : Int
  orgRole : String
  isAdmin : Bool
deriving DecidableEq, Repr

/-- The roles query: `user LEFT JOIN org_user ON u.id = ou.user_id
WHERE u.is_admin OR ou.org_id = ?`. A user without memberships contributes a
null-extended row (empty role) that survives the filter only when the user is an admin;
a membership row survives when the user is an admin or the membership is in `orgID`. -/
def userRoleRows (σ : State) (orgID : Int) (u : UserRec) : List UserOrgRole :=
  let ms := σ.orgUsers.filter (fun m => m.userId == u.id)
  if ms.isEmpty then
    (if u.isAdmin then [⟨u.id, "", true⟩] else [])
  else
    (ms.filter (fun m => u.isAdmin || m.orgId == orgID)).map
      (fun m => ⟨u.id, m.role, u.isAdmin⟩)

def roleRows (σ : State) (orgID : Int) : List UserOrgRole :=
  σ.users.flatMap (userRoleRows σ orgID)

/-- One step of the Go loop over `dbRoles`: a non-empty org role overwrites the entry
with a singleton, then `Grafana Admin` is appended when the row's admin flag is set. -/
def applyRoleRow (m : List (Int × List String)) (r : UserOrgRole) :
    List (Int × List String) :=
  let m1 := if r.orgRole ≠ "" then alSet m r.userId [r.orgRole] else m
  if r.isAdmin then alSet m1 r.userId (alGet m1 r.userId [] ++ [RoleGrafanaAdmin]) else m1

/-- The basic-roles map of `GetUsersPermissions`. -/
def rolesMapFn (σ : State) (orgID : Int) : List (Int × List String) :=
  (roleRows σ orgID).foldl applyRoleRow []

/-- `GetUsersPermissions`: the permissions map and the basic-roles map. -/
def GetUsersPermissions (σ : State) (orgID : Int) (pfx : String) :
    List (Int × List Permission) × List (Int × List String) :=
  (mappedPerms σ orgID pfx, rolesMapFn σ orgID)

/-- The per-row accumulator `applyRoleRow` restricted to a single user id: how the
entry of one key evolves along its rows (`none` = key absent). -/
def rolesStep (o : Option (List String)) (r : UserOrgRole) : Option (List String) :=
  let o1 := if r.orgRole ≠ "" then some [r.orgRole] else o
  if r.isAdmin then some (o1.getD [] ++ [RoleGrafanaAdmin]) else o1

/-- Which of the five database statements of `DeleteUserPermissions` fails (if any). -/
structure FailPlan where
  delUserRoles : Option DBErr
  delUserScoped : Option DBErr
  findRoles : Option DBErr
  delPermissions : Option DBErr
  delRoles : Option DBErr

/-- The all-success failure plan. -/
def noFail : FailPlan := ⟨none, none, none, none, none⟩

/-- `SELECT id FROM role WHERE name = ?` (`AND org_id = ?` unless the global scope):
the ids of the managed role(s) of the user, in scope. -/
def selectedRoleIDs (σ : State) (orgID userID : Int) : List Int :=
  (σ.roles.filter
      (fun r => r.name == ManagedUserRoleName userID
        && (orgID == GlobalOrgID || r.orgId == orgID))).map (fun r => r.id)

/-- The session callback of `DeleteUserPermissions`, statement by statement:
delete user-role assignments (org-scoped unless global), then — only at the global
scope — delete permissions scoped directly to the user, then select the managed role
ids (early success when none), then delete their permissions, then the roles. -/
def deleteBody (pl : FailPlan) (orgID userID : Int) (σ : State) : Except DBErr State :=
  match pl.delUserRoles with
  | some e => .error e
  | none =>
    let σ1 : State :=
      { σ with userRoles := (σ.userRoles.filter
          (fun ur => !(ur.userId == userID && (orgID == GlobalOrgID || ur.orgId == orgID)))) }
    match (if orgID == GlobalOrgID then pl.delUserScoped else none) with
    | some e => .error e
    | none =>
      let σ2 : State :=
        if orgID == GlobalOrgID then
          { σ1 with permissions := (σ1.permissions.filter
              (fun p => !(p.scope == userScope userID))) }
        else σ1
      match pl.findRoles with
      | some e => .error e
      | none =>
        let ids := selectedRoleIDs σ2 orgID userID
        if ids.isEmpty then .ok σ2
        else
          match pl.delPermissions with
          | some e => .error e
          | none =>
            let σ3 : State :=
              { σ2 with permissions := (σ2.permissions.filter
                  (fun p => !(ids.contains p.roleId))) }
            match pl.delRoles with
            | some e => .error e
            | none =>
              .ok { σ3 with roles := σ3.roles.filter (fun r => !(ids.contains r.id)) }

/-- Modelled from the spec: the external session executor (`db.DB.WithDbSession`,
not under `src/`) runs the callback inside a transactional scope — on a callback
error the transaction rolls back (state unchanged) and the error is propagated;
on success the new state commits. -/
def DeleteUserPermissions (pl : FailPlan) (orgID userID : Int) (σ : State) :
    Option DBErr × State :=
  match deleteBody pl orgID userID σ with
  | .error e => (some e, σ)
  | .ok σ' => (none, σ')

/-- The committed state after a successful `DeleteUserPermissions`. -/
def deleteOk (orgID userID : Int) (σ : State) : State :=
  (DeleteUserPermissions noFail orgID userID σ).2

/-- The effect of a successful `DeleteUserPermissions`, written as one record update:
user-role assignments of the user in scope are removed; permissions scoped directly to
the user are removed when the scope is global; permissions and roles of the selected
managed role ids are removed. -/
def deletedState (orgID userID : Int) (σ : State) : State :=
  let ids := selectedRoleIDs σ orgID userID
  { σ with
    userRoles := (σ.userRoles.filter
      (fun ur => !(ur.userId == userID && (orgID == GlobalOrgID || ur.orgId == orgID)))),
    permissions := ((if orgID == GlobalOrgID then
        σ.permissions.filter (fun p => !(p.scope == userScope userID))
      else σ.permissions).filter (fun p => !(ids.contains p.roleId))),
    roles := (σ.roles.filter (fun r => !(ids.contains r.id))) }

/-- A state where one permission is reachable for user 5 in org 1 both through a direct
user-role link and through a team-role link (role 10, team 3). -/
def exTwoPaths : State :=
  { users := [], orgUsers := [],
    userRoles := [⟨1, 5, 10⟩],
    teamRoles := [⟨1, 3, 10⟩],
    teamMembers := [⟨3, 5⟩],
    builtinRoles := [], roles := [],
    permissions := [⟨10, "a", "s"⟩] }

/-- A state where user 5 reaches, in org 1, permissions with actions `"abc"` and
`"xyz"` through role 10. -/
def exActions : State :=
  { users := [], orgUsers := [], userRoles := [⟨1, 5, 10⟩], teamRoles := [],
    teamMembers := [], builtinRoles := [], roles := [],
    permissions := [⟨10, "abc", "s"⟩, ⟨10, "xyz", "t"⟩] }

/-- A state with a global admin (user 7) whose only membership is in org 2, as Editor. -/
def exOtherOrgAdmin : State :=
  { users := [⟨7, true⟩], orgUsers := [⟨2, 7, "Editor"⟩], userRoles := [], teamRoles := [],
    teamMembers := [], builtinRoles := [], roles := [], permissions := [] }

/-- A state with a direct user-role assignment for user 5 in org 1 but no managed role. -/
def exAssignmentOnly : State :=
  { users := [], orgUsers := [], userRoles := [⟨1, 5, 10⟩], teamRoles := [],
    teamMembers := [], builtinRoles := [], roles := [], permissions := [] }

/-- A state where user 5's managed role in org 1 owns a permission scoped directly to
user 5. -/
def exManagedScoped : State :=
  { users := [], orgUsers := [], userRoles := [], teamRoles := [],
    teamMembers := [], builtinRoles := [],
    roles := [⟨10, 1, "managed:users:5:permissions"⟩],
    permissions := [⟨10, "x", "users:id:5"⟩] }

/-- A state whose org-2 rows (user-role assignment, managed role, owned permission)
must survive a deletion scoped to org 1. -/
def exOtherOrgRows : State :=
  { users := [], orgUsers := [], userRoles := [⟨2, 5, 10⟩], teamRoles := [],
    teamMembers := [], builtinRoles := [],
    roles := [⟨10, 2, "managed:users:5:permissions"⟩],
    permissions := [⟨10, "a", "s"⟩] }

/-- A failure plan whose managed-permission delete statement fails. -/
def failPermPlan : FailPlan := ⟨none, none, none, some "dberr", none⟩

/-- The spec's reading of the outer action filter — byte-for-byte prefix match instead
of SQL `LIKE` — stated as a second selection for comparison with `permRows`. -/
def permRowsPfx (σ : State) (orgID : Int) (pf : String) : List UPermRow :=
  (unionRows σ).filter
    (fun r => (r.orgId == GlobalOrgID || r.orgId == orgID) && strHasPfx pf r.action)

theorem alFind_alSet_self {α : Type} (m : List (Int × α)) (k : Int) (v : α) :
    alFind (alSet m k v) k = some v := by
  induction m with
  | nil => simp [alSet, alFind]
  | cons p ps ih =>
    by_cases h : p.1 = k
    · simp [alSet, h, alFind]
    · simp [alSet, h, alFind, ih]

theorem alFind_alSet_ne {α : Type} (m : List (Int × α)) (k k' : Int) (v : α)
    (h : k' ≠ k) : alFind (alSet m k v) k' = alFind m k' := by
  induction m with
  | nil => simp [alSet, alFind, Ne.symm h]
  | cons p ps ih =>
    by_cases hp : p.1 = k
    · subst hp
      simp [alSet, alFind, Ne.symm h]
    · simp only [alSet, if_neg hp]
      by_cases hp' : p.1 = k'
      · simp [alFind, hp']
      · simp [alFind, hp', ih]

theorem alFind_applyRoleRow (m : List (Int × List String)) (r : UserOrgRole) (k : Int) :
    alFind (applyRoleRow m r) k =
      if r.userId = k then rolesStep (alFind m k) r else alFind m k := by
  by_cases hk : r.userId = k
  · subst hk
    by_cases hr : r.orgRole = ""
    · by_cases ha : r.isAdmin
      · simp [applyRoleRow, rolesStep, hr, ha, alFind_alSet_self, alGet]
      · simp [applyRoleRow, rolesStep, hr, ha]
    · by_cases ha : r.isAdmin
      · simp [applyRoleRow, rolesStep, hr, ha, alFind_alSet_self, alGet]
      · simp [applyRoleRow, rolesStep, hr, ha, alFind_alSet_self]
  · by_cases hr : r.orgRole = ""
    · by_cases ha : r.isAdmin
      · simp [applyRoleRow, hr, ha, hk, alFind_alSet_ne _ _ _ _ (Ne.symm hk)]
      · simp [applyRoleRow, hr, ha, hk]
    · by_cases ha : r.isAdmin
      · simp [applyRoleRow, hr, ha, hk, alFind_alSet_ne _ _ _ _ (Ne.symm hk)]
      · simp [applyRoleRow, hr, ha, hk, alFind_alSet_ne _ _ _ _ (Ne.symm hk)]

theorem alFind_foldl_applyRoleRow (rows : List UserOrgRole)
    (m : List (Int × List String)) (k : Int) :
    alFind (rows.foldl applyRoleRow m) k =
      (rows.filter (fun r => r.userId == k)).foldl rolesStep (alFind m k) := by
  induction rows generalizing m with
  | nil => rfl
  | cons r rs ih =>
    simp only [List.foldl_cons, List.filter_cons]
    by_cases h : r.userId = k
    · have hb : (r.userId == k) = true := by simp [h]
      simp [hb, ih, alFind_applyRoleRow, h]
    · have hb : (r.userId == k) = false := by simp [h]
      simp [hb, ih, alFind_applyRoleRow, h]

theorem likeMatch_trailing_pct (p t : List Char) (hp : '%' ∉ p) (hu : '_' ∉ p) :
    likeMatch (p ++ ['%']) t = p.isPrefixOf t := by
  induction p generalizing t with
  | nil =>
    have h1 : List.isPrefixOf ([] : List Char) t = true := by
      cases t <;> rfl
    rw [List.nil_append, h1]
    show (if ('%' : Char) = '%' then t.tails.any (fun s => likeMatch [] s) else _) = true
    rw [if_pos rfl]
    refine List.any_eq_true.mpr ⟨[], ?_, ?_⟩
    · exact (List.mem_tails _ _).mpr List.nil_suffix
    · rfl
  | cons c cs ih =>
    have hc : c ≠ '%' := fun h => hp (h ▸ List.mem_cons_self c cs)
    have hcu : c ≠ '_' := fun h => hu (h ▸ List.mem_cons_self c cs)
    have hp' : '%' ∉ cs := fun h => hp (List.mem_cons_of_mem c h)
    have hu' : '_' ∉ cs := fun h => hu (List.mem_cons_of_mem c h)
    cases t with
    | nil =>
      simp [likeMatch, hc, List.isPrefixOf]
    | cons d ts =>
      by_cases hcd : c = d
      · subst hcd
        simp [likeMatch, hc, hcu, List.isPrefixOf, ih ts hp' hu']
      · simp [likeMatch, hc, hcu, hcd, List.isPrefixOf]

theorem sqlLike_noMeta_eq_pfx (pfx a : String) (hp : '%' ∉ pfx.data) (hu : '_' ∉ pfx.data) :
    sqlLike (pfx ++ "%") a = strHasPfx pfx a := by
  unfold sqlLike strHasPfx
  have hd : (pfx ++ "%").data = pfx.data ++ ['%'] := String.data_append pfx "%"
  rw [hd]
  exact likeMatch_trailing_pct pfx.data a.data hp hu

theorem selectedRoleIDs_upd₁ (σ : State) (o u : Int) (A : List UserRoleRow) :
    selectedRoleIDs { σ with userRoles := A } o u = selectedRoleIDs σ o u := rfl

theorem selectedRoleIDs_upd₂ (σ : State) (o u : Int) (A : List UserRoleRow)
    (P : List PermissionRow) :
    selectedRoleIDs { σ with userRoles := A, permissions := P } o u
      = selectedRoleIDs σ o u := rfl

theorem deleteBody_noFail (o u : Int) (σ : State) :
    deleteBody noFail o u σ = .ok (deletedState o u σ) := by
  by_cases ho : (o == GlobalOrgID) = true
  · by_cases hids : selectedRoleIDs σ o u = []
    · simp [deleteBody, deletedState, noFail, ho, hids,
        selectedRoleIDs_upd₁, selectedRoleIDs_upd₂]
    · have hids' : (selectedRoleIDs σ o u).isEmpty = false := by
        cases h : (selectedRoleIDs σ o u).isEmpty
        · rfl
        · exact absurd (List.isEmpty_iff.mp h) hids
      simp [deleteBody, deletedState, noFail, ho, hids',
        selectedRoleIDs_upd₁, selectedRoleIDs_upd₂]
  · have ho' : (o == GlobalOrgID) = false := by
      cases h : (o == GlobalOrgID)
      · rfl
      · exact absurd h ho
    by_cases hids : selectedRoleIDs σ o u = []
    · simp [deleteBody, deletedState, noFail, ho', hids,
        selectedRoleIDs_upd₁, selectedRoleIDs_upd₂]
    · have hids' : (selectedRoleIDs σ o u).isEmpty = false := by
        cases h : (selectedRoleIDs σ o u).isEmpty
        · rfl
        · exact absurd (List.isEmpty_iff.mp h) hids
      simp [deleteBody, deletedState, noFail, ho', hids',
        selectedRoleIDs_upd₁, selectedRoleIDs_upd₂]

theorem delete_noFail_eq (o u : Int) (σ : State) :
    DeleteUserPermissions noFail o u σ = (none, deletedState o u σ) := by
  unfold DeleteUserPermissions
  rw [deleteBody_noFail]

theorem deleteOk_eq (o u : Int) (σ : State) :
    deleteOk o u σ = deletedState o u σ := by
  unfold deleteOk
  rw [delete_noFail_eq]

theorem filter_contains_nil_perm (l : List PermissionRow) :
    l.filter (fun p => !(List.contains ([] : List Int) p.roleId)) = l :=
  List.filter_eq_self.mpr (fun _ _ => rfl)

theorem filter_contains_nil_role (l : List RoleRec) :
    l.filter (fun r => !(List.contains ([] : List Int) r.id)) = l :=
  List.filter_eq_self.mpr (fun _ _ => rfl)

theorem filter_idem {α : Type} (p : α → Bool) (l : List α) :
    (l.filter p).filter p = l.filter p :=
  List.filter_eq_self.mpr (fun _ ha => (List.mem_filter.mp ha).2)

theorem selectedRoleIDs_deletedState (o u : Int) (σ : State) :
    selectedRoleIDs (deletedState o u σ) o u = [] := by
  have hroles : (deletedState o u σ).roles
      = σ.roles.filter (fun r => !((selectedRoleIDs σ o u).contains r.id)) := rfl
  unfold selectedRoleIDs
  rw [hroles, List.filter_filter]
  have hnil : σ.roles.filter
      (fun a => (a.name == ManagedUserRoleName u && (o == GlobalOrgID || a.orgId == o))
        && !((selectedRoleIDs σ o u).contains a.id)) = [] := by
    apply List.filter_eq_nil_iff.mpr
    intro a ha hcontra
    simp only [Bool.and_eq_true] at hcontra
    obtain ⟨⟨hc1, hc2⟩, hnc⟩ := hcontra
    have hin : a.id ∈ selectedRoleIDs σ o u := by
      unfold selectedRoleIDs
      refine List.mem_map.mpr ⟨a, List.mem_filter.mpr ⟨ha, ?_⟩, rfl⟩
      simp [hc1, hc2]
    have : (selectedRoleIDs σ o u).contains a.id = true := List.elem_iff.mpr hin
    rw [this] at hnc
    exact absurd hnc (by decide)
  rw [hnil]
  rfl

theorem deletedState_idem (o u : Int) (σ : State) :
    deletedState o u (deletedState o u σ) = deletedState o u σ := by
  have hsel := selectedRoleIDs_deletedState o u σ
  have hUR : (deletedState o u (deletedState o u σ)).userRoles
      = (deletedState o u σ).userRoles := by
    show ((deletedState o u σ).userRoles.filter _) = (deletedState o u σ).userRoles
    exact filter_idem _ _
  have hR : (deletedState o u (deletedState o u σ)).roles
      = (deletedState o u σ).roles := by
    show ((deletedState o u σ).roles.filter
      (fun r => !((selectedRoleIDs (deletedState o u σ) o u).contains r.id)))
        = (deletedState o u σ).roles
    rw [hsel]
    exact filter_contains_nil_role _
  have hP : (deletedState o u (deletedState o u σ)).permissions
      = (deletedState o u σ).permissions := by
    show (((if (o == GlobalOrgID) = true then
        (deletedState o u σ).permissions.filter (fun p => !(p.scope == userScope u))
      else (deletedState o u σ).permissions)).filter
        (fun p => !((selectedRoleIDs (deletedState o u σ) o u).contains p.roleId)))
      = (deletedState o u σ).permissions
    rw [hsel]
    by_cases ho : (o == GlobalOrgID) = true
    · rw [if_pos ho]
      have hscope : (deletedState o u σ).permissions.filter
          (fun p => !(p.scope == userScope u)) = (deletedState o u σ).permissions := by
        apply List.filter_eq_self.mpr
        intro a ha
        have hmem : a ∈ (if (o == GlobalOrgID) = true then
            σ.permissions.filter (fun p => !(p.scope == userScope u))
          else σ.permissions).filter
            (fun p => !((selectedRoleIDs σ o u).contains p.roleId)) := ha
        have h1 := (List.mem_filter.mp hmem).1
        rw [if_pos ho] at h1
        exact (List.mem_filter.mp h1).2
      rw [hscope]
      exact filter_contains_nil_perm _
    · rw [if_neg ho]
      exact filter_contains_nil_perm _
  have hfix : ∀ τ : State, (deletedState o u τ).users = τ.users
      ∧ (deletedState o u τ).orgUsers = τ.orgUsers
      ∧ (deletedState o u τ).teamRoles = τ.teamRoles
      ∧ (deletedState o u τ).teamMembers = τ.teamMembers
      ∧ (deletedState o u τ).builtinRoles = τ.builtinRoles :=
    fun τ => ⟨rfl, rfl, rfl, rfl, rfl⟩
  obtain ⟨f1, f2, f3, f4, f5⟩ := hfix (deletedState o u σ)
  cases hτ : deletedState o u σ with
  | mk us ou urs trs tms brs rs ps =>
    rw [hτ] at hUR hR hP f1 f2 f3 f4 f5
    cases hτ2 : deletedState o u (State.mk us ou urs trs tms brs rs ps) with
    | mk us2 ou2 urs2 trs2 tms2 brs2 rs2 ps2 =>
      rw [hτ2] at hUR hR hP f1 f2 f3 f4 f5
      simp only [State.mk.injEq]
      exact ⟨f1, f2, hUR, f3, f4, f5, hR, hP⟩

/-- C1: DeleteUserPermissions is atomic: whichever of the five statements (delete
user-role assignments, delete user-scoped permissions, look up the managed role ids,
delete the managed role's permissions, delete the managed role rows) fails first, the
whole operation returns that error and the persisted state is returned unchanged. -/
theorem C1_delete_atomic (pl : FailPlan) (o u : Int) (σ : State) (e : DBErr)
    (h : pl.delUserRoles = some e
      ∨ (pl.delUserRoles = none
          ∧ (if o == GlobalOrgID then pl.delUserScoped else none) = some e)
      ∨ (pl.delUserRoles = none
          ∧ (if o == GlobalOrgID then pl.delUserScoped else none) = none
          ∧ pl.findRoles = some e)
      ∨ (pl.delUserRoles = none
          ∧ (if o == GlobalOrgID then pl.delUserScoped else none) = none
          ∧ pl.findRoles = none ∧ selectedRoleIDs σ o u ≠ []
          ∧ pl.delPermissions = some e)
      ∨ (pl.delUserRoles = none
          ∧ (if o == GlobalOrgID then pl.delUserScoped else none) = none
          ∧ pl.findRoles = none ∧ selectedRoleIDs σ o u ≠ []
          ∧ pl.delPermissions = none ∧ pl.delRoles = some e)) :
    DeleteUserPermissions pl o u σ = (some e, σ) := by
  unfold DeleteUserPermissions deleteBody
  by_cases ho : (o == GlobalOrgID) = true
  · rcases h with h1 | ⟨h1, h2⟩ | ⟨h1, h2, h3⟩ | ⟨h1, h2, h3, h4, h5⟩
      | ⟨h1, h2, h3, h4, h5, h6⟩ <;>
      simp_all [selectedRoleIDs_upd₁, selectedRoleIDs_upd₂, List.isEmpty_iff]
  · rcases h with h1 | ⟨h1, h2⟩ | ⟨h1, h2, h3⟩ | ⟨h1, h2, h3, h4, h5⟩
      | ⟨h1, h2, h3, h4, h5, h6⟩ <;>
      simp_all [selectedRoleIDs_upd₁, selectedRoleIDs_upd₂, List.isEmpty_iff]

/-- C1 witness: with only the managed-permission delete failing, at a state holding a
managed role for user 5 in org 1, the operation reports that error and leaves the
state exactly as it was. -/
theorem C1_delete_atomic_witness :
    DeleteUserPermissions failPermPlan 1 5 exManagedScoped = (some "dberr", exManagedScoped) :=
  C1_delete_atomic failPermPlan 1 5 exManagedScoped "dberr"
    (Or.inr (Or.inr (Or.inr (Or.inl ⟨rfl, by decide, rfl, by decide, rfl⟩))))

/-- C4 counterexample: in a state with a direct user-role assignment but no managed
role for user 5, DeleteUserPermissions(1, 5) returns success yet does change the
persisted state (the assignment row is deleted), refuting "performs no further state
change" for the no-managed-role case as stated. -/
theorem C4_not_noop_cex :
    (∀ r ∈ exAssignmentOnly.roles, r.name ≠ ManagedUserRoleName 5)
    ∧ (DeleteUserPermissions noFail 1 5 exAssignmentOnly).1 = none
    ∧ (DeleteUserPermissions noFail 1 5 exAssignmentOnly).2 ≠ exAssignmentOnly := by
  decide

/-- C4 (amended): every run with no database failure returns success (in particular
when no managed role encoding the user exists), and a second call immediately
following a successful first call with the same arguments returns success and leaves
the state exactly as the first call left it. -/
theorem C4_second_call_noop (o u : Int) (σ : State) :
    (DeleteUserPermissions noFail o u σ).1 = none
    ∧ DeleteUserPermissions noFail o u (deleteOk o u σ) = (none, deleteOk o u σ) := by
  constructor
  · rw [delete_noFail_eq]
  · rw [deleteOk_eq, delete_noFail_eq, deletedState_idem]

/-- C5 counterexample: with OrgID = 1 (not the global scope), a permission row whose
scope names user 5 directly is nonetheless removed, because it is owned by the user's
managed role in org 1 — refuting "removed exactly when OrgID is the global scope". -/
theorem C5_scoped_perm_cex :
    ((1 : Int) ≠ GlobalOrgID)
    ∧ (⟨10, "x", "users:id:5"⟩ : PermissionRow) ∈ exManagedScoped.permissions
    ∧ (⟨10, "x", "users:id:5"⟩ : PermissionRow).scope = userScope 5
    ∧ (DeleteUserPermissions noFail 1 5 exManagedScoped).2.permissions = [] := by
  decide

/-- C5 (amended): a successful DeleteUserPermissions removes exactly the direct
user-role assignment rows of the user restricted to OrgID (across all organizations
when OrgID is the global scope), and a permission row is removed if and only if it is
user-scoped while OrgID is global, or it is owned by one of the selected managed role
ids — so a user-scoped permission row owned by the user's managed role disappears
even at a non-global OrgID. -/
theorem C5_delete_effect (o u : Int) (σ : State) :
    (DeleteUserPermissions noFail o u σ).2.userRoles
        = σ.userRoles.filter
            (fun ur => !(ur.userId == u && (o == GlobalOrgID || ur.orgId == o)))
    ∧ (DeleteUserPermissions noFail o u σ).2.permissions
        = σ.permissions.filter
            (fun p => !((o == GlobalOrgID && p.scope == userScope u)
              || (selectedRoleIDs σ o u).contains p.roleId)) := by
  rw [delete_noFail_eq]
  refine ⟨rfl, ?_⟩
  show ((if (o == GlobalOrgID) = true then
      σ.permissions.filter (fun p => !(p.scope == userScope u))
    else σ.permissions).filter
      (fun p => !((selectedRoleIDs σ o u).contains p.roleId))) = _
  by_cases ho : (o == GlobalOrgID) = true
  · rw [if_pos ho, List.filter_filter]
    apply List.filter_congr
    intro a _
    cases hs : (a.scope == userScope u) <;>
      cases hc : ((selectedRoleIDs σ o u).contains a.roleId) <;>
        simp [ho, hs, hc]
  · rw [if_neg ho]
    apply List.filter_congr
    intro a _
    have ho' : (o == GlobalOrgID) = false := by
      cases h : (o == GlobalOrgID)
      · rfl
      · exact absurd h ho
    cases hc : ((selectedRoleIDs σ o u).contains a.roleId) <;> simp [ho', hc]

theorem not_mem_selectedRoleIDs (o u : Int) (σ : State) (ho : o ≠ GlobalOrgID)
    (hn : (σ.roles.map (fun r => r.id)).Nodup)
    (r : RoleRec) (hm : r ∈ σ.roles) (hne : r.orgId ≠ o) :
    r.id ∉ selectedRoleIDs σ o u := by
  intro hcon
  unfold selectedRoleIDs at hcon
  obtain ⟨r', hr', hid⟩ := List.mem_map.mp hcon
  have hr'm := (List.mem_filter.mp hr').1
  have hcond := (List.mem_filter.mp hr').2
  simp only [Bool.and_eq_true, Bool.or_eq_true, beq_iff_eq] at hcond
  have horg : r'.orgId = o := by
    rcases hcond.2 with h | h
    · exact absurd h ho
    · exact h
  have heq : r' = r := List.inj_on_of_nodup_map hn hr'm hm hid
  rw [heq] at horg
  exact hne horg

/-- C9: for a non-global OrgID, a successful DeleteUserPermissions leaves every row
of any other organization untouched: user-role assignment rows with a different org,
roles (managed or not, including globally scoped ones) with a different org, and the
permission rows owned by such roles all survive (role ids assumed unique, as they are
primary keys). -/
theorem C9_other_org_frame (o u : Int) (σ : State) (ho : o ≠ GlobalOrgID)
    (hn : (σ.roles.map (fun r => r.id)).Nodup) :
    (∀ ur ∈ σ.userRoles, ur.orgId ≠ o → ur ∈ (deleteOk o u σ).userRoles)
    ∧ (∀ r ∈ σ.roles, r.orgId ≠ o → r ∈ (deleteOk o u σ).roles)
    ∧ (∀ p ∈ σ.permissions, ∀ r ∈ σ.roles, r.id = p.roleId → r.orgId ≠ o
        → p ∈ (deleteOk o u σ).permissions) := by
  rw [deleteOk_eq]
  have hob : (o == GlobalOrgID) = false := by
    cases h : (o == GlobalOrgID)
    · rfl
    · exact absurd (by simpa using h) ho
  refine ⟨?_, ?_, ?_⟩
  · intro ur hm hne
    have hpred : (!(ur.userId == u && (o == GlobalOrgID || ur.orgId == o))) = true := by
      simp [hob, hne]
    exact List.mem_filter.mpr ⟨hm, hpred⟩
  · intro r hm hne
    have hnotin := not_mem_selectedRoleIDs o u σ ho hn r hm hne
    have hpred : (!((selectedRoleIDs σ o u).contains r.id)) = true := by
      cases hc : ((selectedRoleIDs σ o u).contains r.id)
      · rfl
      · exact absurd (List.elem_iff.mp hc) hnotin
    exact List.mem_filter.mpr ⟨hm, hpred⟩
  · intro p hp r hm hid hne
    have hnotin := not_mem_selectedRoleIDs o u σ ho hn r hm hne
    rw [hid] at hnotin
    show p ∈ ((if (o == GlobalOrgID) = true then
        σ.permissions.filter (fun q => !(q.scope == userScope u))
      else σ.permissions).filter
        (fun q => !((selectedRoleIDs σ o u).contains q.roleId)))
    rw [if_neg (by rw [hob]; exact Bool.false_ne_true)]
    have hpred : (!((selectedRoleIDs σ o u).contains p.roleId)) = true := by
      cases hc : ((selectedRoleIDs σ o u).contains p.roleId)
      · rfl
      · exact absurd (List.elem_iff.mp hc) hnotin
    exact List.mem_filter.mpr ⟨hp, hpred⟩

/-- C9 witness: deleting user 5's permissions in org 1 keeps the org-2 assignment row,
the org-2 managed role, and the permission owned by that org-2 role. -/
theorem C9_other_org_frame_witness :
    (⟨2, 5, 10⟩ : UserRoleRow) ∈ (deleteOk 1 5 exOtherOrgRows).userRoles
    ∧ (⟨10, 2, "managed:users:5:permissions"⟩ : RoleRec) ∈ (deleteOk 1 5 exOtherOrgRows).roles
    ∧ (⟨10, "a", "s"⟩ : PermissionRow) ∈ (deleteOk 1 5 exOtherOrgRows).permissions := by
  obtain ⟨h1, h2, h3⟩ := C9_other_org_frame 1 5 exOtherOrgRows (by decide) (by decide)
  exact ⟨h1 ⟨2, 5, 10⟩ (by decide) (by decide),
    h2 ⟨10, 2, "managed:users:5:permissions"⟩ (by decide) (by decide),
    h3 ⟨10, "a", "s"⟩ (by decide) ⟨10, 2, "managed:users:5:permissions"⟩ (by decide)
      (by decide) (by decide)⟩

/-- C7: with UserID = 0 and empty TeamIDs and Roles, GetUserPermissions returns the
empty permission list and no error for every organization, action list, state, and
even when the underlying query would fail — the query is never reached. -/
theorem C7_no_identity_empty (fl : Option DBErr) (σ : State) (o : Int)
    (acts : List String) :
    GetUserPermissions fl σ ⟨o, 0, [], [], acts⟩ = ([], none) := rfl

/-- C8: whenever the Actions allow-list is non-empty, every returned permission's
action is an exact member of it; and when Actions is empty no action restriction is
applied — on the successful non-short-circuit path the result is exactly the
unrestricted aggregation. -/
theorem C8_actions_allow_list (fl : Option DBErr) (σ : State)
    (q : GetUserPermissionsQuery) :
    (q.actions ≠ [] → ∀ p ∈ (GetUserPermissions fl σ q).1, p.action ∈ q.actions)
    ∧ (q.actions = [] → fl = none
        → ¬(q.userID = 0 ∧ q.teamIDs = [] ∧ q.roles = [])
        → (GetUserPermissions fl σ q).1 = basePerms σ q) := by
  constructor
  · intro hne p hp
    unfold GetUserPermissions at hp
    by_cases hsc : (q.userID == 0 && q.teamIDs.isEmpty && q.roles.isEmpty) = true
    · rw [if_pos hsc] at hp
      exact absurd hp (List.not_mem_nil p)
    · rw [if_neg hsc] at hp
      cases fl with
      | some e => exact absurd hp (List.not_mem_nil p)
      | none =>
        have hae : q.actions.isEmpty = false := by
          cases h : q.actions.isEmpty
          · rfl
          · exact absurd (List.isEmpty_iff.mp h) hne
        rw [hae] at hp
        simp only [Bool.false_eq_true, if_false] at hp
        have hc := (List.mem_filter.mp hp).2
        exact List.elem_iff.mp hc
  · intro hnil hfl hns
    subst hfl
    unfold GetUserPermissions
    have hsc : (q.userID == 0 && q.teamIDs.isEmpty && q.roles.isEmpty) = false := by
      cases h : (q.userID == 0 && q.teamIDs.isEmpty && q.roles.isEmpty)
      · rfl
      · simp only [Bool.and_eq_true, beq_iff_eq, List.isEmpty_iff] at h
        exact absurd ⟨h.1.1, h.1.2, h.2⟩ hns
    rw [if_neg (by rw [hsc]; exact Bool.false_ne_true)]
    have hae : q.actions.isEmpty = true := by
      rw [hnil]
      rfl
    rw [hae]
    rfl

/-- C8 witness: at a concrete state, the allow-list `["abc"]` restricts the result to
actions in it, and with an empty allow-list the result is the unrestricted
aggregation. -/
theorem C8_actions_allow_list_witness :
    (∀ p ∈ (GetUserPermissions none exActions ⟨1, 5, [], [], ["abc"]⟩).1,
      p.action ∈ (["abc"] : List String))
    ∧ (GetUserPermissions none exActions ⟨1, 5, [], [], []⟩).1
        = basePerms exActions ⟨1, 5, [], [], []⟩ :=
  ⟨(C8_actions_allow_list none exActions ⟨1, 5, [], [], ["abc"]⟩).1 (by decide),
   (C8_actions_allow_list none exActions ⟨1, 5, [], [], []⟩).2 rfl rfl (by decide)⟩

/-- C3 counterexample: the permission `("a","s")` of role 10 reaches user 5 in org 1
through both the direct user-role path and the team path, yet the query result carries
it once — SQL `UNION` deduplicates — refuting "once per path". -/
theorem C3_union_dedup_cex :
    (⟨5, 1, "a", "s"⟩ : UPermRow) ∈ branchUser exTwoPaths
    ∧ (⟨5, 1, "a", "s"⟩ : UPermRow) ∈ branchTeam exTwoPaths
    ∧ (dbPerms exTwoPaths 1 "").count ⟨5, "a", "s"⟩ = 1 := by
  decide

/-- C3 (amended): the four grant-path branches are combined with SQL `UNION`, which
removes duplicate `(user, org, action, scope)` rows: the combined row list has no
duplicates (so a permission reachable via several paths in the same organization scope
appears once, not once per path), a row is present exactly when some branch derives
it, and after the outer filter every row still occurs at most once. -/
theorem C3_union_semantics (σ : State) :
    (unionRows σ).Nodup
    ∧ (∀ r : UPermRow, r ∈ unionRows σ
        ↔ (r ∈ branchUser σ ∨ r ∈ branchTeam σ ∨ r ∈ branchBuiltin σ ∨ r ∈ branchAdmin σ))
    ∧ (∀ (o : Int) (pf : String) (r : UPermRow), (permRows σ o pf).count r ≤ 1) := by
  refine ⟨List.nodup_dedup _, ?_, ?_⟩
  · intro r
    unfold unionRows
    rw [List.mem_dedup]
    simp [or_assoc]
  · intro o pf r
    have hnd : (permRows σ o pf).Nodup := (List.nodup_dedup _).filter _
    exact List.nodup_iff_count_le_one.mp hnd r

/-- C2 counterexample: user 7 is a global admin whose only org membership is in org 2;
the roles map for org 1 nonetheless lists "Editor" — an org role the user does not
hold within org 1 — before `Grafana Admin`, refuting "no other roles appear". -/
theorem C2_roles_map_cex :
    alFind (GetUsersPermissions exOtherOrgAdmin 1 "").2 7 = some ["Editor", RoleGrafanaAdmin]
    ∧ (∀ m ∈ exOtherOrgAdmin.orgUsers, m.orgId ≠ 1)
    ∧ "Editor" ≠ RoleGrafanaAdmin := by
  decide

/-- C2 (amended): the roles-map entry of each user id is the left fold, over the
selected rows with that id in scan order, where a row with a non-empty org role —
for a global admin this includes memberships in organizations other than OrgID —
resets the entry to that single role, and every admin row then appends
`Grafana Admin`; ids with no effective row are absent. -/
theorem C2_roles_map_fold (σ : State) (o : Int) (pf : String) (k : Int) :
    alFind (GetUsersPermissions σ o pf).2 k
      = ((roleRows σ o).filter (fun r => r.userId == k)).foldl rolesStep none := by
  show alFind (rolesMapFn σ o) k = _
  unfold rolesMapFn
  rw [alFind_foldl_applyRoleRow]
  rfl

/-- C6 counterexample: with actionPrefix `"a_c"`, the stored permission with action
`"abc"` — which does not start with `"a_c"` byte-for-byte — appears in the result,
because the underscore is a `LIKE` wildcard. -/
theorem C6_like_wildcard_cex :
    alFind (GetUsersPermissions exActions 1 "a_c").1 5 = some [⟨"abc", "s"⟩]
    ∧ strHasPfx "a_c" "abc" = false := by
  decide

/-- C6 (amended): the action filter is SQL `LIKE` with pattern `actionPrefix + "%"`,
where `%` and `_` inside actionPrefix act as wildcards; whenever actionPrefix contains
neither `%` nor `_`, the selection coincides with byte-for-byte prefix matching. -/
theorem C6_like_eq_pfx_no_meta (σ : State) (o : Int) (pf : String)
    (hp : '%' ∉ pf.data) (hu : '_' ∉ pf.data) :
    permRows σ o pf = permRowsPfx σ o pf := by
  unfold permRows permRowsPfx
  apply List.filter_congr
  intro r _
  rw [sqlLike_noMeta_eq_pfx pf r.action hp hu]

/-- C6 witness: for the metacharacter-free actionPrefix `"ab"`, the `LIKE` selection
and the byte-for-byte prefix selection agree at a concrete state. -/
theorem C6_like_eq_pfx_no_meta_witness :
    ('%' ∉ "ab".data ∧ '_' ∉ "ab".data)
    ∧ permRows exActions 1 "ab" = permRowsPfx exActions 1 "ab" :=
  ⟨⟨by decide, by decide⟩, C6_like_eq_pfx_no_meta exActions 1 "ab" (by decide) (by decide)⟩

theorem alFind_addPermRow (m : List (Int × List Permission)) (r : UserRBACPermission)
    (k : Int) :
    alFind (addPermRow m r) k
      = if r.userId = k then some (alGet m k [] ++ [⟨r.action, r.scope⟩])
        else alFind m k := by
  unfold addPermRow
  by_cases h : r.userId = k
  · subst h
    rw [if_pos rfl, alFind_alSet_self]
  · rw [if_neg h, alFind_alSet_ne _ _ _ _ (Ne.symm h)]

theorem alFind_foldl_addPermRow_none (rows : List UserRBACPermission)
    (m : List (Int × List Permission)) (k : Int) :
    alFind (rows.foldl addPermRow m) k = none
      ↔ (alFind m k = none ∧ ∀ r ∈ rows, r.userId ≠ k) := by
  induction rows generalizing m with
  | nil => simp
  | cons r rs ih =>
    rw [List.foldl_cons, ih, alFind_addPermRow]
    by_cases h : r.userId = k
    · simp [h, List.forall_mem_cons]
    · simp [h, List.forall_mem_cons]

theorem foldl_addPermRow_vals (rows : List UserRBACPermission)
    (m : List (Int × List Permission))
    (h : ∀ (k : Int) (l : List Permission), alFind m k = some l → l ≠ []) :
    ∀ (k : Int) (l : List Permission),
      alFind (rows.foldl addPermRow m) k = some l → l ≠ [] := by
  induction rows generalizing m with
  | nil => exact h
  | cons r rs ih =>
    simp only [List.foldl_cons]
    refine ih _ ?_
    intro k l hkl
    rw [alFind_addPermRow] at hkl
    by_cases hk : r.userId = k
    · rw [if_pos hk] at hkl
      injection hkl with h2
      rw [← h2]
      simp
    · rw [if_neg hk] at hkl
      exact h k l hkl

theorem rolesStep_none_iff (ini : Option (List String)) (r : UserOrgRole) :
    rolesStep ini r = none ↔ (ini = none ∧ r.orgRole = "" ∧ r.isAdmin = false) := by
  unfold rolesStep
  by_cases ha : r.isAdmin = true <;> by_cases hr : r.orgRole = "" <;>
    simp [ha, hr]

theorem foldl_rolesStep_none_iff (rows : List UserOrgRole) (ini : Option (List String)) :
    rows.foldl rolesStep ini = none
      ↔ (ini = none ∧ ∀ r ∈ rows, r.orgRole = "" ∧ r.isAdmin = false) := by
  induction rows generalizing ini with
  | nil => simp
  | cons r rs ih =>
    rw [List.foldl_cons, ih, rolesStep_none_iff, List.forall_mem_cons]
    tauto

theorem foldl_rolesStep_vals (rows : List UserOrgRole) (ini : Option (List String))
    (h : ∀ l : List String, ini = some l → l ≠ []) :
    ∀ l : List String, rows.foldl rolesStep ini = some l → l ≠ [] := by
  induction rows generalizing ini with
  | nil => exact h
  | cons r rs ih =>
    simp only [List.foldl_cons]
    refine ih _ ?_
    intro l hl
    unfold rolesStep at hl
    by_cases ha : r.isAdmin = true
    · rw [if_pos ha] at hl
      injection hl with h2
      rw [← h2]
      simp
    · rw [if_neg ha] at hl
      by_cases hr : r.orgRole = ""
      · have : ¬(r.orgRole ≠ "") := fun hc => hc hr
        rw [if_neg this] at hl
        exact h l hl
      · rw [if_pos hr] at hl
        injection hl with h2
        rw [← h2]
        simp

theorem mem_userRoleRows_info (σ : State) (o : Int) (us : UserRec) (rr : UserOrgRole)
    (h : rr ∈ userRoleRows σ o us) :
    rr.userId = us.id ∧ rr.isAdmin = us.isAdmin := by
  unfold userRoleRows at h
  by_cases hms : (σ.orgUsers.filter (fun m => m.userId == us.id)).isEmpty = true
  · rw [if_pos hms] at h
    by_cases ha : us.isAdmin = true
    · rw [if_pos ha] at h
      have heq := List.mem_singleton.mp h
      rw [heq]
      exact ⟨rfl, ha.symm⟩
    · rw [if_neg ha] at h
      exact absurd h (List.not_mem_nil rr)
  · rw [if_neg hms] at h
    obtain ⟨m, _, heq⟩ := List.mem_map.mp h
    rw [← heq]
    exact ⟨rfl, rfl⟩

theorem admin_mem_userRoleRows (σ : State) (o : Int) (us : UserRec)
    (ha : us.isAdmin = true) :
    ∃ rr ∈ userRoleRows σ o us, rr.userId = us.id ∧ rr.isAdmin = true := by
  unfold userRoleRows
  by_cases hms : (σ.orgUsers.filter (fun m => m.userId == us.id)).isEmpty = true
  · rw [if_pos hms, if_pos ha]
    exact ⟨⟨us.id, "", true⟩, List.mem_singleton.mpr rfl, rfl, rfl⟩
  · rw [if_neg hms]
    have hne : σ.orgUsers.filter (fun m => m.userId == us.id) ≠ [] := by
      intro hcon
      rw [hcon] at hms
      exact hms rfl
    obtain ⟨m, hm⟩ := List.exists_mem_of_ne_nil _ hne
    refine ⟨⟨us.id, m.role, us.isAdmin⟩, ?_, rfl, ha⟩
    refine List.mem_map.mpr ⟨m, ?_, rfl⟩
    exact List.mem_filter.mpr ⟨hm, by simp [ha]⟩

theorem mem_roleRows_info (σ : State) (o : Int) (rr : UserOrgRole)
    (h : rr ∈ roleRows σ o) :
    ∃ us ∈ σ.users, rr.userId = us.id ∧ rr.isAdmin = us.isAdmin := by
  obtain ⟨us, hus, h2⟩ := List.mem_flatMap.mp h
  exact ⟨us, hus, mem_userRoleRows_info σ o us rr h2⟩

theorem admin_mem_roleRows (σ : State) (o : Int) (us : UserRec)
    (hus : us ∈ σ.users) (ha : us.isAdmin = true) :
    ∃ rr ∈ roleRows σ o, rr.userId = us.id ∧ rr.isAdmin = true := by
  obtain ⟨rr, h1, h2⟩ := admin_mem_userRoleRows σ o us ha
  exact ⟨rr, List.mem_flatMap.mpr ⟨us, hus, h1⟩, h2⟩

/-- C10: neither result map of GetUsersPermissions carries an empty-list entry: a user
id is a key of the permissions map iff some selected permission row is reachable for
it, and a key of the roles map iff the user holds a non-empty org role among the
selected rows or carries the global-admin flag; every stored list is non-empty. -/
theorem C10_no_empty_entries (σ : State) (o : Int) (pf : String) (k : Int) :
    (alFind (GetUsersPermissions σ o pf).1 k ≠ none
      ↔ ∃ r ∈ permRows σ o pf, r.userId = k)
    ∧ (∀ l : List Permission, alFind (GetUsersPermissions σ o pf).1 k = some l → l ≠ [])
    ∧ (alFind (GetUsersPermissions σ o pf).2 k ≠ none
      ↔ ((∃ rr ∈ roleRows σ o, rr.userId = k ∧ rr.orgRole ≠ "")
          ∨ (∃ us ∈ σ.users, us.id = k ∧ us.isAdmin = true)))
    ∧ (∀ l : List String, alFind (GetUsersPermissions σ o pf).2 k = some l → l ≠ []) := by
  have hchar : alFind (rolesMapFn σ o) k
      = ((roleRows σ o).filter (fun r => r.userId == k)).foldl rolesStep none := by
    unfold rolesMapFn
    rw [alFind_foldl_applyRoleRow]
    rfl
  refine ⟨?_, ?_, ?_, ?_⟩
  · show alFind (mappedPerms σ o pf) k ≠ none ↔ _
    unfold mappedPerms
    rw [Ne, alFind_foldl_addPermRow_none]
    constructor
    · intro h
      by_cases hex : ∃ r ∈ dbPerms σ o pf, r.userId = k
      · obtain ⟨r, hr, hk⟩ := hex
        obtain ⟨row, hrow, heq⟩ := List.mem_map.mp hr
        refine ⟨row, hrow, ?_⟩
        rw [← hk, ← heq]
      · exact absurd ⟨rfl, fun r hr hk => hex ⟨r, hr, hk⟩⟩ h
    · rintro ⟨row, hrow, hk⟩ ⟨_, hall⟩
      exact hall ⟨row.userId, row.action, row.scope⟩
        (List.mem_map.mpr ⟨row, hrow, rfl⟩) hk
  · show ∀ l : List Permission, alFind (mappedPerms σ o pf) k = some l → l ≠ []
    unfold mappedPerms
    intro l
    refine foldl_addPermRow_vals _ _ ?_ k l
    intro kk ll hll
    exact absurd hll (by simp [alFind])
  · show alFind (rolesMapFn σ o) k ≠ none ↔ _
    have h1 : alFind (rolesMapFn σ o) k = none
        ↔ ∀ r ∈ roleRows σ o, r.userId = k → (r.orgRole = "" ∧ r.isAdmin = false) := by
      rw [hchar, foldl_rolesStep_none_iff]
      constructor
      · intro h r hr hk
        exact h.2 r (List.mem_filter.mpr ⟨hr, by simp [hk]⟩)
      · intro h
        refine ⟨rfl, fun r hr => ?_⟩
        have h2 := List.mem_filter.mp hr
        exact h r h2.1 (by simpa using h2.2)
    constructor
    · intro hne
      by_contra hcon
      apply hne
      rw [h1]
      intro r hr hk
      constructor
      · by_contra hrole
        exact hcon (Or.inl ⟨r, hr, hk, hrole⟩)
      · cases hadm : r.isAdmin
        · rfl
        · obtain ⟨us, hus, hid, hadmeq⟩ := mem_roleRows_info σ o r hr
          refine absurd (Or.inr ⟨us, hus, ?_, ?_⟩) hcon
          · rw [← hid, hk]
          · rw [← hadmeq, hadm]
    · rintro (⟨r, hr, hk, hrole⟩ | ⟨us, hus, hid, hadm⟩) hnone
      · rw [h1] at hnone
        exact hrole (hnone r hr hk).1
      · obtain ⟨rr, hrr, hrid, hradm⟩ := admin_mem_roleRows σ o us hus hadm
        rw [h1] at hnone
        have hfls := (hnone rr hrr (by rw [hrid, hid])).2
        rw [hradm] at hfls
        exact Bool.noConfusion hfls
  · show ∀ l : List String, alFind (rolesMapFn σ o) k = some l → l ≠ []
    intro l hl
    rw [hchar] at hl
    refine foldl_rolesStep_vals _ none ?_ l hl
    intro ll hll
    exact absurd hll (by simp)

/-- C10 witness: user 5 keys the permissions map of `exTwoPaths` with the non-empty
list `[("a","s")]`, and admin user 7 keys the roles map of `exOtherOrgAdmin` with a
non-empty list. -/
theorem C10_no_empty_entries_witness :
    alFind (GetUsersPermissions exTwoPaths 1 "").1 5 ≠ none
    ∧ ([⟨"a", "s"⟩] : List Permission) ≠ []
    ∧ alFind (GetUsersPermissions exOtherOrgAdmin 1 "").2 7 ≠ none
    ∧ (["Editor", RoleGrafanaAdmin] : List String) ≠ [] :=
  ⟨(C10_no_empty_entries exTwoPaths 1 "" 5).1.mpr ⟨⟨5, 1, "a", "s"⟩, by decide, rfl⟩,
   (C10_no_empty_entries exTwoPaths 1 "" 5).2.1 [⟨"a", "s"⟩] (by decide),
   (C10_no_empty_entries exOtherOrgAdmin 1 "" 7).2.2.1.mpr
     (Or.inr ⟨⟨7, true⟩, by decide, rfl, rfl⟩),
   (C10_no_empty_entries exOtherOrgAdmin 1 "" 7).2.2.2 ["Editor", RoleGrafanaAdmin]
     (by decide)⟩

end ACStore
